import Mathlib

/-!
SAD device firmware: configuration store, provisioning listener, join loop, telemetry.

A shallow embedding of `src/main.cpp`.  The globals of the sketch become the fields of
`State`; the flash file `/config.json`, the radio, the clock, the sensor and the HTTP
backend are the environment, and every value the environment hands to the code is an
explicit argument of the function that receives it.  What the code does to the outside
(requests, replies, the restart, calls into the store) is appended to `State.trace`.
Serial output is left out of the trace, apart from two lines that report the result of a
join attempt: "Failed to connect to WiFi: connection timed out." in `connectToWiFi` and
"Connected to Wi-Fi" in `mainLoop`.

The library routines the sketch calls follow the ESP32 Arduino core (`String`; `int`,
`long` and `unsigned long` have 32 bits, `atol` saturates) and ArduinoJson 7
(`JsonDocument`, `deserializeJson`, the `as<T>()` conversions).
-/

namespace SAD

/-! ## Arduino `String` -/

/-- An Arduino `String`, as the sequence of its characters.  The length of a `String` is an
`unsigned int`, so an `int` of `-1` handed to an `unsigned int` parameter lies beyond the
end of every string; index arguments are kept as integers and a negative one is read so. -/
abbrev Str := List Char

/-- The C routine `strstr`: offset of the first occurrence of `pat`. -/
def strstr (pat : Str) : Str → Option Nat
  | [] => if pat = [] then some 0 else none
  | c :: cs => if pat.isPrefixOf (c :: cs) then some 0 else (strstr pat cs).map (· + 1)

/-- The C routine `strchr`: offset of the first occurrence of `ch`. -/
def strchr (ch : Char) : Str → Option Nat
  | [] => none
  | c :: cs => if c = ch then some 0 else (strchr ch cs).map (· + 1)

/-- Arduino `String::indexOf(const String&, unsigned int fromIndex)`. -/
def indexOfFrom (s pat : Str) (fromIndex : Int) : Int :=
  if fromIndex < 0 ∨ fromIndex ≥ s.length then -1
  else match strstr pat (s.drop fromIndex.toNat) with
    | some k => fromIndex + k
    | none => -1

/-- Arduino `String::indexOf(const String&)`, which searches from index 0. -/
def indexOf (s pat : Str) : Int := indexOfFrom s pat 0

/-- Arduino `String::indexOf(char, unsigned int fromIndex)`. -/
def indexOfChar (s : Str) (ch : Char) (fromIndex : Int) : Int :=
  if fromIndex < 0 ∨ fromIndex ≥ s.length then -1
  else match strchr ch (s.drop fromIndex.toNat) with
    | some k => fromIndex + k
    | none => -1

/-- An `unsigned int` index argument, cut to the length of the string. -/
def clipIndex (len : Nat) (i : Int) : Nat := if i < 0 then len else min i.toNat len

/-- Arduino `String::substring(unsigned int left, unsigned int right)`: the bounds are
swapped when `left > right`, the result is empty when `left` is at or past the end, and
`right` is cut to the length. -/
def substring (s : Str) (left right : Int) : Str :=
  let l := min (clipIndex s.length left) (clipIndex s.length right)
  let r := max (clipIndex s.length left) (clipIndex s.length right)
  (s.drop l).take (r - l)

/-- Arduino `String::substring(unsigned int beginIndex)`, which runs to the end. -/
def substringFrom (s : Str) (beginIndex : Int) : Str := substring s beginIndex s.length

/-- The C predicate `isspace`. -/
def isspace (c : Char) : Bool :=
  c == ' ' || c == '\t' || c == '\n' || c == '\x0b' || c == '\x0c' || c == '\r'

/-- The value of the leading run of decimal digits, continuing from `acc`. -/
def digitsValue : Nat → Str → Nat
  | acc, [] => acc
  | acc, c :: cs => if c.isDigit then digitsValue (acc * 10 + (c.toNat - 48)) cs else acc

/-- Largest value of `long` (and of `int`) on the ESP32. -/
def LONG_MAX : Int := 2147483647

/-- Smallest value of `long` (and of `int`) on the ESP32. -/
def LONG_MIN : Int := -2147483648

/-- The result of `strtol` for a value that may lie outside `long`. -/
def clampLong (i : Int) : Int :=
  if i > LONG_MAX then LONG_MAX else if i < LONG_MIN then LONG_MIN else i

/-- Arduino `String::toInt`, that is `atol`: white space is skipped, an optional sign is
read, then the leading digits; text without a number gives 0 and a value outside `long`
gives the nearest bound. -/
def toInt (s : Str) : Int :=
  match s.dropWhile isspace with
  | '-' :: cs => clampLong (-(digitsValue 0 cs : Int))
  | '+' :: cs => clampLong (digitsValue 0 cs)
  | cs => clampLong (digitsValue 0 cs)

/-- The call `replace(find, "")` for a one-character `find`: every occurrence is deleted. -/
def removeAll (find : Char) (s : Str) : Str := s.filter (· ≠ find)

/-! ## ArduinoJson documents -/

/-- A C `float`: not-a-number, or a number. -/
inductive CFloat
  | nan
  | num (q : ℚ)

/-- The C predicate `isnan`. -/
def isnan : CFloat → Bool
  | .nan => true
  | .num _ => false

/-- The content of an ArduinoJson `JsonDocument`. An object keeps its members in insertion
order. -/
inductive Json
  | null
  | bool (b : Bool)
  | int (i : Int)
  | float (f : CFloat)
  | str (s : Str)
  | arr (items : List Json)
  | obj (members : List (Str × Json))

/-- Value of the first member named `key`, null when there is none. -/
def lookup (key : Str) : List (Str × Json) → Json
  | [] => .null
  | (k, v) :: rest => if k = key then v else lookup key rest

/-- Replace the value of the member named `key`, or append the member. -/
def upsert (key : Str) (v : Json) : List (Str × Json) → List (Str × Json)
  | [] => [(key, v)]
  | (k, w) :: rest => if k = key then (key, v) :: rest else (k, w) :: upsert key v rest

/-- Reading `doc[key]`: null unless the document is an object with that member. -/
def Json.get (d : Json) (key : String) : Json :=
  match d with
  | .obj members => lookup key.data members
  | _ => .null

/-- The assignment `doc[key] = v`: a null document becomes an object, an object gets the
member replaced or appended, any other document is left as it is. -/
def Json.set (d : Json) (key : String) (v : Json) : Json :=
  match d with
  | .null => .obj [(key.data, v)]
  | .obj members => .obj (upsert key.data v members)
  | other => other

/-- The conversion `as<const char*>()` assigned to a `String`: the text of a string, and the
empty `String` for anything else (a null pointer is assigned). -/
def asStr : Json → Str
  | .str s => s
  | _ => []

/-- The conversion to `int` from an integer that may lie outside `int`: 0 when it does. -/
def fitInt (i : Int) : Int := if LONG_MIN ≤ i ∧ i ≤ LONG_MAX then i else 0

/-- Is the text an optional minus sign followed by digits only, at least one. -/
def isIntegerText : Str → Bool
  | '-' :: c :: cs => (c :: cs).all Char.isDigit
  | c :: cs => (c :: cs).all Char.isDigit
  | [] => false

/-- The conversion `as<int>()`: an integer that fits, a boolean as 0 or 1, a number cut
towards zero, a string holding an integer numeral as that integer; 0 for a value
outside `int` and for everything else.  Strings holding a numeral with a fraction or an
exponent are read as 0 here. -/
def asInt : Json → Int
  | .int i => fitInt i
  | .bool b => if b then 1 else 0
  | .float (.num q) => fitInt (q.num.tdiv q.den)
  | .str ('-' :: cs) => if isIntegerText ('-' :: cs) then fitInt (-(digitsValue 0 cs : Int)) else 0
  | .str s => if isIntegerText s then fitInt (digitsValue 0 s) else 0
  | _ => 0

/-- The conversion `as<bool>()`: a boolean is itself, a number is true when non-zero, null
is false, everything else is true. -/
def asBool : Json → Bool
  | .bool b => b
  | .int i => decide (i ≠ 0)
  | .float (.num q) => decide (q ≠ 0)
  | .float .nan => true
  | .null => false
  | _ => true

/-- The conversion `as<JsonArray>()` assigned to a member: the array, or null when the
value is not an array. -/
def asArray : Json → Json
  | .arr items => .arr items
  | _ => .null

/-- Outcome of `deserializeJson(doc, input)`.  The destination is cleared before parsing, so
after a failure it holds what the parser had built, not its previous content. -/
inductive Deser
  | ok (value : Json)
  | fail (left : Json)

/-! ## State and environment -/

/-- What `/config.json` holds on flash. -/
inductive Stored
  | absent
  | holds (content : Deser)

/-- How an attempt to rewrite `/config.json` goes. -/
inductive WriteOutcome
  | openFailed
  | nothingWritten
  | written

/-- What the firmware does to the outside, in order. -/
inductive Event
  | resetConfig
  | updateConfig
  | reply (line : Str)
  | clientStop
  | restart
  | getSettings (api_url : Str) (device : Int) (token : Str)
  | postMeasurement (api_url : Str) (token : Str) (body : Json)
  | postDevice (api_url : Str) (token : Str) (body : Json)
  | wifiBegin (ssid password : Str)
  | softAP (ssid password : Str)
  | led (high : Bool)
  | serverBegin
  | serverStop
  | serial (msg : Str)

/-- The globals of the sketch, the flash file, and the trace. -/
structure State where
  wifi_ssid : Str
  wifi_password : Str
  api_url : Str
  device_type : Int
  api_token : Str
  device_name : Str
  device_id : Int
  device_created : Bool
  device_settings : Json
  doc : Json
  CONNECTED_TO_WIFI : Bool
  file : Stored
  trace : List Event

/-- Append one event to the trace. -/
def State.emit (st : State) (e : Event) : State := { st with trace := st.trace ++ [e] }

/-- The state at power-up: zero-initialised globals, empty documents. -/
def boot (file : Stored) : State :=
  { wifi_ssid := [], wifi_password := [], api_url := [], device_type := 0, api_token := [],
    device_name := [], device_id := 0, device_created := false, device_settings := .null,
    doc := .null, CONNECTED_TO_WIFI := false, file := file, trace := [] }

/-- The HTTP status (or negative transport error) of a POST or GET, with the outcome of
parsing the body. -/
structure Response where
  code : Int
  body : Deser

/-! ## Config store -/

/-- The file after `LittleFS.open(path, "w")` and `serializeJson(doc, config_file)`: left as
it was when the open fails, cut to nothing when the open succeeds and no byte is
written, and the serialised document otherwise. -/
def writeFile (w : WriteOutcome) (d : Json) (old : Stored) : Stored :=
  match w with
  | .openFailed => old
  | .nothingWritten => .holds (.fail .null)
  | .written => .holds (.ok d)

/-- Source: `resetConfig`.  Only the document and the file are touched, not the globals;
`JsonArray()` is an unbound array, which is stored as null. -/
def resetConfig (w : WriteOutcome) (st : State) : State :=
  let st := st.emit .resetConfig
  match w with
  | .openFailed => st
  | _ =>
    let d := st.doc.set "WIFI_SSID" (.str [])
    let d := d.set "WIFI_PASS" (.str [])
    let d := d.set "TOKEN" (.str [])
    let d := d.set "DEVICE_NAME" (.str [])
    let d := d.set "DEVICE_ID" (.int (-1))
    let d := d.set "CREATED" (.bool false)
    let d := d.set "SETTINGS" .null
    { st with doc := d, file := writeFile w d st.file }

/-- Source: `updateConfig`.  The members `API_URL` and `TYPE` of the document are not
assigned and stay as they are. -/
def updateConfig (w : WriteOutcome) (st : State) : State :=
  let st := st.emit .updateConfig
  match w with
  | .openFailed => st
  | _ =>
    let d := st.doc.set "WIFI_SSID" (.str st.wifi_ssid)
    let d := d.set "WIFI_PASS" (.str st.wifi_password)
    let d := d.set "TOKEN" (.str st.api_token)
    let d := d.set "DEVICE_NAME" (.str st.device_name)
    let d := d.set "DEVICE_ID" (.int st.device_id)
    let d := d.set "CREATED" (.bool st.device_created)
    let d := d.set "SETTINGS" (asArray st.device_settings)
    { st with doc := d, file := writeFile w d st.file }

/-- Source: `loadConfig`.  The SETTINGS member is only printed; `device_settings` is not
assigned. -/
def loadConfig (st : State) : State :=
  match st.file with
  | .absent => st
  | .holds (.fail left) => { st with doc := left }
  | .holds (.ok j) =>
    { st with
      doc := j
      wifi_ssid := asStr (j.get "WIFI_SSID")
      wifi_password := asStr (j.get "WIFI_PASS")
      api_url := asStr (j.get "API_URL")
      device_type := asInt (j.get "TYPE")
      api_token := asStr (j.get "TOKEN")
      device_name := asStr (j.get "DEVICE_NAME")
      device_id := asInt (j.get "DEVICE_ID")
      device_created := asBool (j.get "CREATED") }

/-- Source: `setup`, as far as the configuration goes: the file is loaded when the file
system mounts. -/
def setup (mounted : Bool) (file : Stored) : State :=
  if mounted then loadConfig (boot file) else boot file

/-! ## Settings sync, telemetry, registration -/

/-- Source: `fetchSettings`.  The body is parsed straight into `device_settings`.  (Here and
in the two functions that post, `new` never yields a null pointer, so the test
`if (client)` always passes.) -/
def fetchSettings (r : Response) (w : WriteOutcome) (st : State) : State :=
  let st := st.emit (.getSettings st.api_url st.device_id st.api_token)
  if r.code > 0 then
    match r.body with
    | .fail left => { st with device_settings := left }
    | .ok value => updateConfig w { st with device_settings := value }
  else st

/-- The payload built in `sendMeasurement`. -/
def measurementBody (device_id : Int) (value : CFloat) (type : Int) : Json :=
  .obj [("device".data, .int device_id), ("value".data, .float value), ("type".data, .int type)]

/-- Source: `sendMeasurement`.  The status `code` of the POST is only logged. -/
def sendMeasurement (device_id : Int) (value : CFloat) (type : Int) (_code : Int)
    (st : State) : State :=
  st.emit (.postMeasurement st.api_url st.api_token (measurementBody device_id value type))

/-- Source: `sendMeasurements`; `code1` and `code2` are the statuses of the two POSTs. -/
def sendMeasurements (temperature humidity : CFloat) (code1 code2 : Int) (st : State) : State :=
  if isnan temperature || isnan humidity then st
  else
    let st := sendMeasurement st.device_id temperature 1 code1 st
    sendMeasurement st.device_id humidity 2 code2 st

/-- The payload built in `create_device`. -/
def deviceBody (name mac : Str) (type : Int) : Json :=
  .obj [("name".data, .str name), ("mac_address".data, .str mac), ("type".data, .int type)]

/-- Source: `create_device`; `mac` is the result of `getMacAddress`. -/
def create_device (mac : Str) (r : Response) (w : WriteOutcome) (st : State) : Bool × State :=
  let st := st.emit (.postDevice st.api_url st.api_token (deviceBody st.device_name mac st.device_type))
  if r.code > 0 then
    match r.body with
    | .fail _ => (false, st)
    | .ok responseDoc =>
      if r.code ≠ 400 then
        (true, updateConfig w { st with device_id := asInt (responseDoc.get "id"), device_created := true })
      else (false, st)
  else (false, st)

/-! ## Joining the managed network -/

/-- The radio and the clock during one call of `connectToWiFi`: `connected k` is the answer
of the k-th test `WiFi.status() == WL_CONNECTED` (from 0), `clock k` the time in ms at
the k-th call of `millis` (call 0 sets `start_attempt_time`). -/
structure Radio where
  connected : Nat → Bool
  clock : Nat → Nat

/-- The value `millis()` returns, an `unsigned long` of 32 bits. -/
def millis (r : Radio) (k : Nat) : Nat := r.clock k % 4294967296

/-- Subtraction of two `unsigned long` values. -/
def elapsed (now start : Nat) : Nat := (now + 4294967296 - start) % 4294967296

/-- Source: `WIFI_CONNECTION_TIMEOUT`. -/
def WIFI_CONNECTION_TIMEOUT : Nat := 1000 * 10

/-- The wait loop of `connectToWiFi`, entered for the k-th time with `fuel` passes left:
whether the radio connected, and the number of passes that did not end the loop. -/
def waitForConnection (r : Radio) (start : Nat) : Nat → Nat → Option (Bool × Nat)
  | 0, _ => none
  | fuel + 1, k =>
    if r.connected k then some (true, k)
    else if elapsed (millis r (k + 1)) start > WIFI_CONNECTION_TIMEOUT then some (false, k)
    else waitForConnection r start fuel (k + 1)

/-- Source: `connectToWiFi`; `none` when the loop is still running after `fuel` passes. -/
def connectToWiFi (fuel : Nat) (r : Radio) (ssid password : Str) (st : State) :
    Option (Bool × State) :=
  let st := st.emit (.wifiBegin ssid password)
  match waitForConnection r (millis r 0) fuel 0 with
  | none => none
  | some (false, _) =>
    some (false, st.emit (.serial "Failed to connect to WiFi: connection timed out.".data))
  | some (true, _) => some (true, { st with CONNECTED_TO_WIFI := true })

/-- Source: `reconnectWifi`. -/
def reconnectWifi (fuel : Nat) (r : Radio) (st : State) : Option State :=
  (connectToWiFi fuel r st.wifi_ssid st.wifi_password st).map (·.2)

/-- Source: `startAccessPoint`, with `AP_SSID` and `AP_PASSWORD`. -/
def startAccessPoint (st : State) : State := st.emit (.softAP "ESP32".data "password".data)

/-! ## Provisioning listener -/

/-- The read loop of `listenForWiFiConfig`: the characters received, up to and including
the first newline. -/
def readRequest : Str → Str
  | [] => []
  | c :: cs => if c = '\n' then [c] else c :: readRequest cs

/-- The test that guards the accepted branch in `listenForWiFiConfig`. -/
def keysPresent (request : Str) : Bool :=
  decide (indexOf request "ACTION=".data ≥ 0)
    && decide (indexOf request "SSID=".data > 0)
    && decide (indexOf request "PASSWORD=".data > 0)
    && decide (indexOf request "DEVICE_NAME=".data > 0)
    && decide (indexOf request "TOKEN=".data > 0)

/-- The locals `action`, `ssid`, `password`, `name`, `token` of `listenForWiFiConfig`. -/
structure Fields where
  action : Int
  ssid : Str
  password : Str
  name : Str
  token : Str

/-- The locals at the end of the accepted branch: `name` and `token` are read from the
request only when `action == 0`, and keep their initial empty value otherwise. -/
def parseFields (request : Str) : Fields :=
  let action := toInt (substring request (indexOf request "ACTION=".data + 7)
    (indexOfChar request ';' (indexOf request "ACTION=".data)))
  let ssid := substring request (indexOf request "SSID=".data + 5)
    (indexOfChar request ';' (indexOf request "SSID=".data))
  let password := substring request (indexOf request "PASSWORD=".data + 9)
    (indexOfChar request ';' (indexOf request "PASSWORD=".data))
  if action = 0 then
    { action := action, ssid := ssid, password := password
      name := substring request (indexOf request "DEVICE_NAME=".data + 12)
        (indexOfChar request ';' (indexOf request "DEVICE_NAME=".data))
      token := removeAll '\n' (substringFrom request (indexOf request "TOKEN=".data + 6)) }
  else
    { action := action, ssid := ssid, password := password, name := [], token := [] }

/-- How a stretch of the sketch ends: it returns, the device restarts, or it is still
inside the listener loop when the recorded environment ends. -/
inductive Run
  | returned (st : State)
  | restarted (st : State)
  | listening (st : State)

/-- The state a run ends in. -/
def Run.state : Run → State
  | .returned st => st
  | .restarted st => st
  | .listening st => st

/-- A client of the provisioning server: the characters it sends before it stops, and how
the writes of `resetConfig` and `updateConfig` go. -/
structure Client where
  sent : Str
  resetWrite : WriteOutcome
  updateWrite : WriteOutcome

/-- The body of `if (client)` in `listenForWiFiConfig`. -/
def serveClient (c : Client) (st : State) : Run :=
  let request := readRequest c.sent
  if keysPresent request then
    let f := parseFields request
    let st := if f.action = 0 then
        { resetConfig c.resetWrite st with device_name := f.name, api_token := f.token }
      else st
    let st := { st with wifi_ssid := f.ssid, wifi_password := f.password }
    let st := updateConfig c.updateWrite st
    .restarted (st.emit .restart)
  else
    let st := st.emit (.reply "Failed to configure Wi-Fi".data)
    .returned (st.emit .clientStop)

/-- One pass of the listener loop: whether `wifiReconnectTicker.update()` fires
`reconnectWifi` (and the radio it then meets), and the client `server.available()` yields. -/
structure Poll where
  reconnect : Option Radio
  client : Option Client

/-- The loop `while (!CONNECTED_TO_WIFI)` of `listenForWiFiConfig` over the recorded passes. -/
def listenLoop (fuel : Nat) : List Poll → State → Option Run
  | [], st =>
    if st.CONNECTED_TO_WIFI then some (.returned (st.emit .serverStop)) else some (.listening st)
  | p :: ps, st =>
    if st.CONNECTED_TO_WIFI then some (.returned (st.emit .serverStop))
    else
      let afterTicker := match p.reconnect with
        | none => some st
        | some r => reconnectWifi fuel r st
      match afterTicker with
      | none => none
      | some st =>
        match p.client with
        | none => listenLoop fuel ps st
        | some c =>
          match serveClient c st with
          | .returned st => listenLoop fuel ps st
          | other => some other

/-- Source: `listenForWiFiConfig`. -/
def listenForWiFiConfig (fuel : Nat) (polls : List Poll) (st : State) : Option Run :=
  listenLoop fuel polls (st.emit .serverBegin)

/-! ## Supervisor tick -/

/-- A sensor read with the statuses of the two POSTs that may follow. -/
structure Reading where
  temperature : CFloat
  humidity : CFloat
  code1 : Int
  code2 : Int

/-- The environment of one call of `mainLoop`. -/
structure Tick where
  linkUp : Bool
  measurement : Option Reading
  settings : Option (Response × WriteOutcome)
  radio : Radio
  polls : List Poll
  mac : Str
  registration : Response
  registrationWrite : WriteOutcome

/-- The registration step at the end of `mainLoop`. -/
def registrationStep (mac : Str) (r : Response) (w : WriteOutcome) (st : State) : State :=
  if !st.device_created then (create_device mac r w st).2 else st

/-- The end of `mainLoop`: the LED is switched off and the registration step runs. -/
def finishTick (env : Tick) (st : State) : Run :=
  .returned (registrationStep env.mac env.registration env.registrationWrite (st.emit (.led false)))

/-- Source: `mainLoop`. -/
def mainLoop (fuel : Nat) (env : Tick) (st : State) : Option Run :=
  if env.linkUp && decide (st.device_id ≠ -1) then
    let st := match env.measurement with
      | none => st
      | some m => sendMeasurements m.temperature m.humidity m.code1 m.code2 st
    let st := match env.settings with
      | none => st
      | some (r, w) => fetchSettings r w st
    some (finishTick env st)
  else
    match connectToWiFi fuel env.radio st.wifi_ssid st.wifi_password st with
    | none => none
    | some (true, st) => some (finishTick env (st.emit (.serial "Connected to Wi-Fi".data)))
    | some (false, st) =>
      let st := { st with CONNECTED_TO_WIFI := false }
      let st := startAccessPoint (st.emit (.led true))
      match listenForWiFiConfig fuel env.polls st with
      | none => none
      | some (.returned st) => some (finishTick env st)
      | some other => some other

/-! ## Vocabulary of the specification -/

/-- The text that follows the first occurrence of `key`, if `key` occurs. -/
def afterKey (key : Str) : Str → Option Str
  | [] => if key = [] then some [] else none
  | c :: cs => if key.isPrefixOf (c :: cs) then some ((c :: cs).drop key.length) else afterKey key cs

/-- The value of a field: the text between the first occurrence of its key and the next
semicolon (the end of the request when no semicolon follows). -/
def fieldValue (key : String) (request : Str) : Str :=
  ((afterKey key.data request).getD []).takeWhile (· ≠ ';')

/-- The value of the token: the text from the first occurrence of `TOKEN=` to the end, with
newlines removed. -/
def tokenValue (request : Str) : Str :=
  ((afterKey "TOKEN=".data request).getD []).filter (· ≠ '\n')

/-- The five keys of the provisioning protocol. -/
def protocolKeys : List Str :=
  ["ACTION=".data, "SSID=".data, "PASSWORD=".data, "DEVICE_NAME=".data, "TOKEN=".data]

/-- The request line `ACTION=<a>;SSID=<s>;PASSWORD=<p>;DEVICE_NAME=<n>;TOKEN=<t>` with its
newline. -/
def requestLine (a s p n t : Str) : Str :=
  "ACTION=".data ++ a ++ ";SSID=".data ++ s ++ ";PASSWORD=".data ++ p
    ++ ";DEVICE_NAME=".data ++ n ++ ";TOKEN=".data ++ t ++ ['\n']

/-- A field value the protocol can carry: no semicolon, no newline, none of the keys. -/
def CleanValue (x : Str) : Prop :=
  ';' ∉ x ∧ '\n' ∉ x ∧ ∀ key ∈ protocolKeys, ¬ key <:+: x

instance : DecidablePred CleanValue := fun x => by
  unfold CleanValue
  infer_instance

/-- The integer a run of decimal digits denotes. -/
def decimalValue (digits : Str) : Nat :=
  digits.foldl (fun acc c => acc * 10 + (c.toNat - 48)) 0

/-- The text of a decimal integer: an optional minus sign, then the digits. -/
def numeralText (negative : Bool) (digits : Str) : Str :=
  (if negative then ['-'] else []) ++ digits

/-- The integer a decimal numeral denotes. -/
def numeralValue (negative : Bool) (digits : Str) : Int :=
  if negative then -(decimalValue digits : Int) else decimalValue digits

/-- A document that accepts the assignment of a member: null, or an object. -/
def Settable : Json → Prop
  | .null => True
  | .obj _ => True
  | _ => False

instance : DecidablePred Settable := fun d => by
  cases d <;> (simp only [Settable]; infer_instance)

/-! ## Concrete inputs -/

/-- The setting record with type 1, type name "temp", unit "C" and value 21.5. -/
def tempSetting : Json :=
  .obj [("type".data, .int 1), ("type_name".data, .str "temp".data),
    ("unit".data, .str "C".data), ("value".data, .float (.num 21.5))]

/-- A persisted record of a registered device, with one setting. -/
def registeredRecord : Json :=
  .obj [("WIFI_SSID".data, .str "OldNet".data), ("WIFI_PASS".data, .str "oldpass".data),
    ("API_URL".data, .str "https://backend/api/".data), ("TYPE".data, .int 1),
    ("TOKEN".data, .str "oldtoken".data), ("DEVICE_NAME".data, .str "OldName".data),
    ("DEVICE_ID".data, .int 5), ("CREATED".data, .bool true),
    ("SETTINGS".data, .arr [tempSetting])]

/-- A registered device after boot and one successful settings fetch: identity 5, created,
one setting in memory and on flash. -/
def registered : State :=
  fetchSettings ⟨200, .ok (.arr [tempSetting])⟩ .written (setup true (.holds (.ok registeredRecord)))

/-- A client that sends `text` and whose writes reach the flash. -/
def clientSending (text : String) : Client := ⟨text.data, .written, .written⟩

/-! ## Vocabulary of the state claims -/

/-- Is the event the line "Connected to Wi-Fi", which `mainLoop` prints after a join. -/
def isReport : Event → Bool
  | .serial msg => msg == "Connected to Wi-Fi".data
  | _ => false

/-- How often the trace reports a successful connection. -/
def reports (st : State) : Nat := st.trace.countP isReport

/-- The identity invariant on the flash file: a record that loads as created does not load
with the identity -1.  A file that is absent or does not parse holds no record. -/
def PersistedInv : Stored → Prop
  | .holds (.ok j) => asBool (j.get "CREATED") = true → asInt (j.get "DEVICE_ID") ≠ -1
  | _ => True

/-- The identity invariant, in memory and on flash. -/
def IdentityInv (st : State) : Prop :=
  (st.device_created = true → st.device_id ≠ -1) ∧ PersistedInv st.file

instance : DecidablePred PersistedInv := fun file => by
  unfold PersistedInv
  split <;> infer_instance

instance : DecidablePred IdentityInv := fun st => by
  unfold IdentityInv
  infer_instance

/-- The operations that touch the configuration, each with what the environment answers;
`reboot` is a restart or power cycle followed by `setup`. -/
inductive Op
  | create_device (mac : Str) (r : Response) (w : WriteOutcome)
  | fetchSettings (r : Response) (w : WriteOutcome)
  | provision (c : Client)
  | resetConfig (w : WriteOutcome)
  | updateConfig (w : WriteOutcome)
  | reboot (mounted : Bool)

/-- The state after one operation; for a provisioning request that is accepted, the state
at the restart. -/
def Op.apply : Op → State → State
  | .create_device mac r w, st => (SAD.create_device mac r w st).2
  | .fetchSettings r w, st => SAD.fetchSettings r w st
  | .provision c, st => (serveClient c st).state
  | .resetConfig w, st => SAD.resetConfig w st
  | .updateConfig w, st => SAD.updateConfig w st
  | .reboot mounted, st => setup mounted st.file

/-- The state after a sequence of operations. -/
def runOps (ops : List Op) (st : State) : State := ops.foldl (fun s op => op.apply s) st

/-- A registration answer that is taken as a success does not carry the identity -1. -/
def Op.identityOk : Op → Prop
  | .create_device _ r _ =>
    match r.body with
    | .ok j => 0 < r.code → r.code ≠ 400 → asInt (j.get "id") ≠ -1
    | .fail _ => True
  | _ => True

instance : DecidablePred Op.identityOk := fun op => by
  unfold Op.identityOk
  split
  · split <;> infer_instance
  · infer_instance

/-- A radio that never connects while the clock jumps by 2^32 ms between two polls. -/
def stalledRadio : Radio := ⟨fun _ => false, fun k => 4294967296 * k⟩

/-- A radio that never connects while the clock advances by 500 ms between two polls. -/
def deadRadio : Radio := ⟨fun _ => false, fun k => 500 * k⟩

/-- A tick without link in which nothing else happens: no ticker fires, no client calls. -/
def idleTick (radio : Radio) : Tick :=
  { linkUp := false, measurement := none, settings := none, radio := radio, polls := [],
    mac := "AA:BB:CC:DD:EE:FF".data, registration := ⟨-1, .fail .null⟩,
    registrationWrite := .written }

/-- A registration answer with status 201 and the body `{"id": id}`. -/
def registrationAnswer (id : Int) : Response := ⟨201, .ok (.obj [("id".data, .int id)])⟩

/-- A run that registers, syncs settings, is provisioned anew, reboots and registers again. -/
def sampleOps : List Op :=
  [.create_device "AA:BB:CC:DD:EE:FF".data (registrationAnswer 7) .written,
   .fetchSettings ⟨200, .ok (.arr [tempSetting])⟩ .written,
   .provision (clientSending "ACTION=0;SSID=Home;PASSWORD=secret;DEVICE_NAME=Sensor1;TOKEN=abc123\n"),
   .reboot true,
   .create_device "AA:BB:CC:DD:EE:FF".data (registrationAnswer 8) .written]

/-! ## Lemmas: string search and extraction -/

theorem strstr_none_of_absent {pat s : Str} (h : ¬ pat <:+: s) : strstr pat s = none := by
  induction s with
  | nil =>
    have hp : pat ≠ [] := by
      rintro rfl
      exact h List.nil_infix
    simp [strstr, hp]
  | cons c cs ih =>
    have h1 : ¬ pat <+: c :: cs := fun hpre => h hpre.isInfix
    have h2 : ¬ pat <:+: cs := fun hin => h (hin.trans (List.suffix_cons c cs).isInfix)
    have h1b : pat.isPrefixOf (c :: cs) = false := by
      rw [Bool.eq_false_iff]
      intro hh
      exact h1 (List.isPrefixOf_iff_prefix.mp hh)
    simp [strstr, h1b, ih h2]

theorem strstr_spec {pat : Str} : ∀ {s : Str} {k : Nat}, strstr pat s = some k →
    afterKey pat s = some (s.drop (k + pat.length)) ∧ s.drop k = pat ++ s.drop (k + pat.length) := by
  intro s
  induction s with
  | nil =>
    intro k h
    by_cases hp : pat = []
    · subst hp
      simp [strstr] at h
      simp [afterKey]
    · simp [strstr, hp] at h
  | cons c cs ih =>
    intro k h
    by_cases hpre : pat.isPrefixOf (c :: cs) = true
    · simp [strstr, hpre] at h
      subst h
      obtain ⟨t, ht⟩ := List.isPrefixOf_iff_prefix.mp hpre
      simp [afterKey, hpre]
      rw [← ht]
      simp
    · simp [strstr, hpre] at h
      obtain ⟨j, hj, rfl⟩ := h
      have := ih hj
      simp [afterKey, hpre]
      have e : j + 1 + pat.length = (j + pat.length) + 1 := by omega
      rw [e]
      simpa using this

theorem afterKey_none_of_strstr {pat : Str} : ∀ {s : Str}, strstr pat s = none → afterKey pat s = none := by
  intro s
  induction s with
  | nil =>
    intro h
    by_cases hp : pat = []
    · simp [strstr, hp] at h
    · simp [afterKey, hp]
  | cons c cs ih =>
    intro h
    by_cases hpre : pat.isPrefixOf (c :: cs) = true
    · simp [strstr, hpre] at h
    · simp [strstr, hpre] at h
      simp [afterKey, hpre, ih h]

theorem indexOf_eq (req pat : Str) (hp : pat ≠ []) :
    indexOf req pat = match strstr pat req with
      | some k => (k : Int)
      | none => -1 := by
  cases req with
  | nil => simp [indexOf, indexOfFrom, strstr, hp]
  | cons c cs =>
    have : ¬ ((cs.length : Int) + 1 ≤ 0) := by omega
    simp [indexOf, indexOfFrom, this]

theorem strchr_none {c : Char} : ∀ {t : Str}, strchr c t = none → t.takeWhile (· ≠ c) = t := by
  intro t
  induction t with
  | nil => simp
  | cons x xs ih =>
    intro h
    by_cases hx : x = c
    · simp [strchr, hx] at h
    · simp [strchr, hx] at h
      rw [List.takeWhile_cons, if_pos (by simpa using hx), ih h]

theorem strchr_some {c : Char} : ∀ {t : Str} {j : Nat}, strchr c t = some j →
    t.take j = t.takeWhile (· ≠ c) ∧ j < t.length := by
  intro t
  induction t with
  | nil => intro j h; simp [strchr] at h
  | cons x xs ih =>
    intro j h
    by_cases hx : x = c
    · simp [strchr, hx] at h
      subst h
      simp [List.takeWhile_cons, hx]
    · simp [strchr, hx] at h
      obtain ⟨i, hi, rfl⟩ := h
      have := ih hi
      simp [List.takeWhile_cons, hx, this.1, this.2]

theorem strchr_append {c : Char} {u : Str} (hu : c ∉ u) (v : Str) :
    strchr c (u ++ v) = (strchr c v).map (· + u.length) := by
  induction u with
  | nil => simp
  | cons x xs ih =>
    have hx : x ≠ c := fun h => hu (by simp [h])
    have hxs : c ∉ xs := fun h => hu (by simp [h])
    simp [strchr, hx, ih hxs]

theorem clipIndex_natCast (len n : Nat) : clipIndex len (n : Int) = min n len := by
  simp [clipIndex]

theorem clipIndex_neg_one (len : Nat) : clipIndex len (-1) = len := by
  simp [clipIndex]

theorem strstr_bounds {pat req : Str} {k : Nat} (h : strstr pat req = some k) (hp : pat ≠ []) :
    k + pat.length + (req.drop (k + pat.length)).length = req.length ∧
    k + pat.length ≤ req.length := by
  obtain ⟨_, h2⟩ := strstr_spec h
  have hplen : 0 < pat.length := List.length_pos.mpr hp
  have h3 := congrArg List.length h2
  simp at h3
  by_cases hk : k + pat.length ≤ req.length
  · constructor
    · simp; omega
    · exact hk
  · exfalso
    omega

theorem substring_field {req pat : Str} {k : Nat} (h : strstr pat req = some k)
    (hp : pat ≠ []) (hsemi : ';' ∉ pat) :
    substring req ((k : Int) + pat.length) (indexOfChar req ';' k)
      = ((afterKey pat req).getD []).takeWhile (· ≠ ';') := by
  obtain ⟨h1, h2⟩ := strstr_spec h
  obtain ⟨hb1, hb2⟩ := strstr_bounds h hp
  have hplen : 0 < pat.length := List.length_pos.mpr hp
  have hk : ¬ ((req.length : Int) ≤ (k : Int)) := by omega
  have hchr : strchr ';' (req.drop k) = (strchr ';' (req.drop (k + pat.length))).map (· + pat.length) := by
    rw [h2]
    exact strchr_append hsemi _
  rw [h1]
  simp only [Option.getD_some]
  have hcast : (k : Int) + (pat.length : Int) = ((k + pat.length : Nat) : Int) := by push_cast; rfl
  rw [hcast]
  cases hj : strchr ';' (req.drop (k + pat.length)) with
  | none =>
    rw [hj] at hchr
    have : indexOfChar req ';' (k : Int) = -1 := by
      simp [indexOfChar, hk, hchr]
    rw [this, strchr_none hj]
    simp only [substring, clipIndex_natCast, clipIndex_neg_one]
    rw [Nat.min_eq_left hb2, Nat.min_eq_left hb2, Nat.max_eq_right hb2]
    rw [List.take_of_length_le]
    simp
  | some j =>
    rw [hj] at hchr
    obtain ⟨ht, hjlt⟩ := strchr_some hj
    have : indexOfChar req ';' (k : Int) = ((k + pat.length + j : Nat) : Int) := by
      simp [indexOfChar, hk, hchr]
      omega
    rw [this, ← ht]
    simp only [substring, clipIndex_natCast]
    have hle : k + pat.length + j ≤ req.length := by omega
    rw [Nat.min_eq_left hb2, Nat.min_eq_left hle,
      Nat.min_eq_left (by omega : k + pat.length ≤ k + pat.length + j),
      Nat.max_eq_right (by omega : k + pat.length ≤ k + pat.length + j)]
    congr 1
    omega

theorem substringFrom_drop {req : Str} {n : Nat} (h : n ≤ req.length) :
    substringFrom req (n : Int) = req.drop n := by
  simp only [substringFrom, substring, clipIndex_natCast]
  rw [Nat.min_eq_left h, Nat.min_self, Nat.min_eq_left h, Nat.max_eq_right h]
  rw [List.take_of_length_le]
  simp

theorem infix_of_strstr {pat s : Str} {k : Nat} (h : strstr pat s = some k) : pat <:+: s := by
  obtain ⟨_, h2⟩ := strstr_spec h
  have h3 : pat <:+: s.drop k := by
    rw [h2]
    exact (List.prefix_append _ _).isInfix
  exact h3.trans (List.drop_suffix k s).isInfix

theorem strstr_none_iff {pat s : Str} : strstr pat s = none ↔ ¬ pat <:+: s := by
  constructor
  · intro h hin
    induction s with
    | nil =>
      have : pat = [] := List.infix_nil.mp hin
      simp [strstr, this] at h
    | cons c cs ih =>
      by_cases hpre : pat.isPrefixOf (c :: cs) = true
      · simp [strstr, hpre] at h
      · simp [strstr, hpre] at h
        rcases List.infix_cons_iff.mp hin with h1 | h1
        · exact hpre (List.isPrefixOf_iff_prefix.mpr h1)
        · exact ih h h1
  · exact strstr_none_of_absent

theorem strstr_zero_iff {pat s : Str} : strstr pat s = some 0 ↔ pat <+: s := by
  constructor
  · intro h
    obtain ⟨_, h2⟩ := strstr_spec h
    simp at h2
    exact ⟨_, h2.symm⟩
  · intro h
    cases s with
    | nil =>
      have : pat = [] := List.prefix_nil.mp h
      simp [strstr, this]
    | cons c cs =>
      have : pat.isPrefixOf (c :: cs) = true := List.isPrefixOf_iff_prefix.mpr h
      simp [strstr, this]

theorem indexOf_nonneg_iff {req pat : Str} (hp : pat ≠ []) :
    indexOf req pat ≥ 0 ↔ pat <:+: req := by
  rw [indexOf_eq req pat hp]
  cases h : strstr pat req with
  | none =>
    simp
    exact strstr_none_iff.mp h
  | some k =>
    simp
    exact infix_of_strstr h

theorem indexOf_pos_iff {req pat : Str} (hp : pat ≠ []) :
    indexOf req pat > 0 ↔ pat <:+: req ∧ ¬ pat <+: req := by
  rw [indexOf_eq req pat hp]
  cases h : strstr pat req with
  | none =>
    simp
    intro hin
    exact absurd hin (strstr_none_iff.mp h)
  | some k =>
    simp
    constructor
    · intro hk
      refine ⟨infix_of_strstr h, fun hpre => ?_⟩
      have := strstr_zero_iff.mpr hpre
      rw [h] at this
      simp at this
      omega
    · rintro ⟨_, hnp⟩
      rcases Nat.eq_zero_or_pos k with hk | hk
      · subst hk
        exact absurd (strstr_zero_iff.mp h) hnp
      · exact hk

/-- The guard of the accepted branch, in words: `ACTION=` occurs in the request, and each of
the other four keys occurs without standing at the very start of it. -/
theorem keysPresent_iff (request : Str) :
    keysPresent request = true ↔
      ("ACTION=".data <:+: request ∧
        ∀ key ∈ ["SSID=".data, "PASSWORD=".data, "DEVICE_NAME=".data, "TOKEN=".data],
          key <:+: request ∧ ¬ key <+: request) := by
  simp only [keysPresent, Bool.and_eq_true, decide_eq_true_eq]
  rw [indexOf_nonneg_iff (by decide), indexOf_pos_iff (by decide), indexOf_pos_iff (by decide),
    indexOf_pos_iff (by decide), indexOf_pos_iff (by decide)]
  simp only [List.mem_cons, List.mem_singleton, forall_eq_or_imp, forall_eq, List.not_mem_nil]
  tauto

theorem indexOf_of_occurs {req pat : Str} (hp : pat ≠ []) (h : pat <:+: req) :
    ∃ k, strstr pat req = some k ∧ indexOf req pat = (k : Int) := by
  rw [indexOf_eq req pat hp]
  cases hk : strstr pat req with
  | none => exact absurd h (strstr_none_iff.mp hk)
  | some k => exact ⟨k, rfl, rfl⟩

/-- The locals of the accepted branch, in the vocabulary of the field extraction rule. -/
theorem parseFields_spec (request : Str) (h : keysPresent request = true) :
    parseFields request =
      if toInt (fieldValue "ACTION=" request) = 0 then
        { action := 0, ssid := fieldValue "SSID=" request, password := fieldValue "PASSWORD=" request
          name := fieldValue "DEVICE_NAME=" request, token := tokenValue request }
      else
        { action := toInt (fieldValue "ACTION=" request), ssid := fieldValue "SSID=" request
          password := fieldValue "PASSWORD=" request, name := [], token := [] } := by
  obtain ⟨ha, hrest⟩ := (keysPresent_iff request).mp h
  simp only [List.mem_cons, List.mem_singleton, forall_eq_or_imp, forall_eq, List.not_mem_nil] at hrest
  obtain ⟨⟨hs, -⟩, ⟨hp, -⟩, ⟨hn, -⟩, ⟨ht, -⟩, -⟩ := hrest
  obtain ⟨ka, hka, ia⟩ := indexOf_of_occurs (by decide) ha
  obtain ⟨ks, hks, is⟩ := indexOf_of_occurs (by decide) hs
  obtain ⟨kp, hkp, ip⟩ := indexOf_of_occurs (by decide) hp
  obtain ⟨kn, hkn, inn⟩ := indexOf_of_occurs (by decide) hn
  obtain ⟨kt, hkt, it⟩ := indexOf_of_occurs (by decide) ht
  have fa : substring request ((ka : Int) + 7) (indexOfChar request ';' ka)
      = fieldValue "ACTION=" request := by
    have h0 := substring_field hka (by decide) (by decide)
    simpa [fieldValue] using h0
  have fs : substring request ((ks : Int) + 5) (indexOfChar request ';' ks)
      = fieldValue "SSID=" request := by
    have h0 := substring_field hks (by decide) (by decide)
    simpa [fieldValue] using h0
  have fp : substring request ((kp : Int) + 9) (indexOfChar request ';' kp)
      = fieldValue "PASSWORD=" request := by
    have h0 := substring_field hkp (by decide) (by decide)
    simpa [fieldValue] using h0
  have fn : substring request ((kn : Int) + 12) (indexOfChar request ';' kn)
      = fieldValue "DEVICE_NAME=" request := by
    have h0 := substring_field hkn (by decide) (by decide)
    simpa [fieldValue] using h0
  have ft : removeAll '\n' (substringFrom request ((kt : Int) + 6)) = tokenValue request := by
    have hb : kt + 6 ≤ request.length := (strstr_bounds hkt (by decide)).2
    have hc : (kt : Int) + 6 = ((kt + 6 : Nat) : Int) := by push_cast; rfl
    have hd : afterKey "TOKEN=".data request = some (request.drop (kt + 6)) := (strstr_spec hkt).1
    rw [hc, substringFrom_drop hb]
    simp only [tokenValue, removeAll, hd, Option.getD_some]
  have e : parseFields request =
      if toInt (substring request ((ka : Int) + 7) (indexOfChar request ';' ka)) = 0 then
        { action := toInt (substring request ((ka : Int) + 7) (indexOfChar request ';' ka))
          ssid := substring request ((ks : Int) + 5) (indexOfChar request ';' ks)
          password := substring request ((kp : Int) + 9) (indexOfChar request ';' kp)
          name := substring request ((kn : Int) + 12) (indexOfChar request ';' kn)
          token := removeAll '\n' (substringFrom request ((kt : Int) + 6)) }
      else
        { action := toInt (substring request ((ka : Int) + 7) (indexOfChar request ';' ka))
          ssid := substring request ((ks : Int) + 5) (indexOfChar request ';' ks)
          password := substring request ((kp : Int) + 9) (indexOfChar request ';' kp)
          name := [], token := [] } := by
    unfold parseFields
    rw [ia, show indexOf request "SSID=".data = (ks : Int) from is,
      show indexOf request "PASSWORD=".data = (kp : Int) from ip,
      show indexOf request "DEVICE_NAME=".data = (kn : Int) from inn,
      show indexOf request "TOKEN=".data = (kt : Int) from it]
  rw [e, fa, fs, fp, fn, ft]
  split
  · next h0 => rw [h0]
  · rfl

/-! ## Lemmas: documents -/

theorem lookup_upsert_same (k : Str) (v : Json) (l : List (Str × Json)) :
    lookup k (upsert k v l) = v := by
  induction l with
  | nil => simp [upsert, lookup]
  | cons x xs ih =>
    obtain ⟨k0, w⟩ := x
    by_cases h : k0 = k
    · simp [upsert, lookup, h]
    · simp [upsert, lookup, h, ih]

theorem lookup_upsert_other {k k2 : Str} (h : k ≠ k2) (v : Json) (l : List (Str × Json)) :
    lookup k2 (upsert k v l) = lookup k2 l := by
  induction l with
  | nil => simp [upsert, lookup, h]
  | cons x xs ih =>
    obtain ⟨k0, w⟩ := x
    by_cases h0 : k0 = k
    · subst h0
      simp [upsert, lookup, h]
    · by_cases h1 : k0 = k2
      · subst h1
        simp [upsert, lookup, h0]
      · simp [upsert, lookup, h0, h1, ih]

theorem get_set_same {d : Json} (h : Settable d) (k : String) (v : Json) :
    (d.set k v).get k = v := by
  cases d <;> simp [Settable] at h <;> simp [Json.set, Json.get, lookup, lookup_upsert_same]

theorem get_set_other (d : Json) {k k2 : String} (h : k.data ≠ k2.data) (v : Json) :
    (d.set k v).get k2 = d.get k2 := by
  cases d <;> simp [Json.set, Json.get, lookup, h, lookup_upsert_other h]

theorem settable_set {d : Json} (h : Settable d) (k : String) (v : Json) :
    Settable (d.set k v) := by
  cases d <;> simp [Settable] at h <;> simp [Json.set, Settable]

theorem set_of_not_settable {d : Json} (h : ¬ Settable d) (k : String) (v : Json) :
    d.set k v = d := by
  cases d <;> simp [Settable] at h <;> simp [Json.set]

theorem get_of_not_settable {d : Json} (h : ¬ Settable d) (k : String) :
    d.get k = .null := by
  cases d <;> simp [Settable] at h <;> simp [Json.get]

/-! ## Lemmas: config store -/

theorem updateConfig_doc_get (w : WriteOutcome) (hw : w ≠ .openFailed) (st : State)
    (h : Settable st.doc) :
    (updateConfig w st).doc.get "WIFI_SSID" = .str st.wifi_ssid ∧
    (updateConfig w st).doc.get "WIFI_PASS" = .str st.wifi_password ∧
    (updateConfig w st).doc.get "TOKEN" = .str st.api_token ∧
    (updateConfig w st).doc.get "DEVICE_NAME" = .str st.device_name ∧
    (updateConfig w st).doc.get "DEVICE_ID" = .int st.device_id ∧
    (updateConfig w st).doc.get "CREATED" = .bool st.device_created ∧
    (updateConfig w st).doc.get "SETTINGS" = asArray st.device_settings := by
  cases w with
  | openFailed => exact absurd rfl hw
  | nothingWritten =>
    simp (disch := first | decide | (intros; (repeat apply settable_set); assumption)) [updateConfig, State.emit, get_set_other, get_set_same]
  | written =>
    simp (disch := first | decide | (intros; (repeat apply settable_set); assumption)) [updateConfig, State.emit, get_set_other, get_set_same]

theorem updateConfig_file_written (st : State) :
    (updateConfig .written st).file = .holds (.ok (updateConfig .written st).doc) := by
  simp [updateConfig, writeFile]

/-! ## Lemmas: the request line -/

theorem afterKey_at_key {key : Str} (rest : Str) (hk : key ≠ []) :
    afterKey key (key ++ rest) = some rest := by
  cases key with
  | nil => exact absurd rfl hk
  | cons k ks =>
    have h : (k :: ks).isPrefixOf (k :: ks ++ rest) = true :=
      List.isPrefixOf_iff_prefix.mpr (List.prefix_append _ _)
    have h2 : (k :: ks).isPrefixOf (k :: (ks ++ rest)) = true := by
      rw [← List.cons_append]
      exact h
    simp only [List.cons_append, afterKey, h2, if_true]
    simp

theorem afterKey_skip {key u : Str} (v : Str) (hk : key ≠ []) (hsemi : ';' ∉ key)
    (hu : ¬ key <:+: u) : afterKey key (u ++ ';' :: v) = afterKey key v := by
  induction u with
  | nil =>
    cases key with
    | nil => exact absurd rfl hk
    | cons k ks =>
      have hne : k ≠ ';' := fun h => hsemi (by simp [h])
      simp [afterKey, hne]
  | cons c cs ih =>
    have h1 : ¬ key <:+: cs := fun hin => hu (hin.trans (List.suffix_cons c cs).isInfix)
    have h2 : (key.isPrefixOf (c :: (cs ++ ';' :: v))) = false := by
      rw [Bool.eq_false_iff]
      intro hh
      have hpre : key <+: (c :: cs) ++ ';' :: v := by
        simpa using List.isPrefixOf_iff_prefix.mp hh
      rcases List.prefix_or_prefix_of_prefix hpre (List.prefix_append _ _) with h | h
      · exact hu h.isInfix
      · obtain ⟨w, hw⟩ := h
        rw [← hw] at hpre
        have hw2 : w <+: ';' :: v := (List.prefix_append_right_inj _).mp hpre
        cases w with
        | nil =>
          apply hu
          rw [← hw]
          simp
        | cons x xs =>
          have hx : x = ';' := by
            have := List.cons_prefix_cons.mp hw2
            exact this.1
          apply hsemi
          rw [← hw, hx]
          simp
    rw [List.cons_append, afterKey, if_neg (by simp [h2])]
    exact ih h1

theorem not_infix_of_head {k0 : Char} {ks u : Str} (h : ∀ c ∈ u, c ≠ k0) : ¬ (k0 :: ks) <:+: u := by
  rintro ⟨a, b, hab⟩
  have : k0 ∈ u := by
    rw [← hab]
    simp
  exact h k0 this rfl

theorem readRequest_line {u : Str} (h : '\n' ∉ u) : readRequest (u ++ ['\n']) = u ++ ['\n'] := by
  induction u with
  | nil => simp [readRequest]
  | cons c cs ih =>
    have hc : c ≠ '\n' := fun e => h (by simp [e])
    have hcs : '\n' ∉ cs := fun e => h (by simp [e])
    simp [readRequest, hc, ih hcs]

theorem takeWhile_field {x : Str} (v : Str) (h : ';' ∉ x) :
    (x ++ ';' :: v).takeWhile (· ≠ ';') = x := by
  induction x with
  | nil => simp
  | cons c cs ih =>
    have hc : c ≠ ';' := fun e => h (by simp [e])
    have hcs : ';' ∉ cs := fun e => h (by simp [e])
    simp only [List.cons_append]
    rw [List.takeWhile_cons, if_pos (by simpa using hc), ih hcs]

theorem filter_line {t : Str} (h : '\n' ∉ t) : (t ++ ['\n']).filter (· ≠ '\n') = t := by
  have ht : t.filter (· ≠ '\n') = t := by
    rw [List.filter_eq_self]
    intro a ha
    have : a ≠ '\n' := fun e => h (e ▸ ha)
    simpa using this
  rw [List.filter_append, ht]
  simp

theorem digitsValue_eq_foldl (digits : Str) (h : ∀ ch ∈ digits, ch.isDigit = true) (acc : Nat) :
    digitsValue acc digits = digits.foldl (fun acc c => acc * 10 + (c.toNat - 48)) acc := by
  induction digits generalizing acc with
  | nil => rfl
  | cons c cs ih =>
    have hc : c.isDigit = true := h c (by simp)
    have hcs : ∀ ch ∈ cs, ch.isDigit = true := fun ch hch => h ch (by simp [hch])
    simp [digitsValue, hc, ih hcs]

theorem isDigit_facts {c : Char} (h : c.isDigit = true) :
    isspace c = false ∧ c ≠ '-' ∧ c ≠ '+' ∧ c ≠ '\n' ∧ c ≠ ';' ∧ c ≠ 'S' ∧ c ≠ 'P' ∧ c ≠ 'D' ∧ c ≠ 'T' := by
  refine ⟨?_, ?_, ?_, ?_, ?_, ?_, ?_, ?_, ?_⟩
  · rw [Bool.eq_false_iff]
    intro hs
    simp only [isspace, Bool.or_eq_true, beq_iff_eq] at hs
    rcases hs with ((((rfl | rfl) | rfl) | rfl) | rfl) | rfl <;> simp at h
  all_goals (rintro rfl; simp at h)

theorem clampLong_of_range {i : Int} (h : LONG_MIN ≤ i ∧ i ≤ LONG_MAX) : clampLong i = i := by
  unfold clampLong
  rw [if_neg (by omega), if_neg (by omega)]

theorem toInt_numeral (negative : Bool) (digits : Str)
    (hd : digits ≠ [] ∧ ∀ ch ∈ digits, ch.isDigit = true)
    (hr : LONG_MIN ≤ numeralValue negative digits ∧ numeralValue negative digits ≤ LONG_MAX) :
    toInt (numeralText negative digits) = numeralValue negative digits := by
  obtain ⟨hne, hall⟩ := hd
  cases digits with
  | nil => exact absurd rfl hne
  | cons d ds =>
    have hdd := isDigit_facts (hall d (by simp))
    cases negative with
    | true =>
      have e : toInt (numeralText true (d :: ds)) = clampLong (-(digitsValue 0 (d :: ds) : Int)) := by
        simp [toInt, numeralText, isspace]
      rw [e, digitsValue_eq_foldl _ hall]
      exact clampLong_of_range hr
    | false =>
      have e : toInt (numeralText false (d :: ds)) = clampLong (digitsValue 0 (d :: ds)) := by
        simp only [toInt, numeralText, List.nil_append, if_false, Bool.false_eq_true]
        rw [List.dropWhile_cons, if_neg (by simp [hdd.1])]
        split
        · next hh => simp at hh; exact absurd hh.1 hdd.2.1
        · next hh => simp at hh; exact absurd hh.1 hdd.2.2.1
        · rfl
      rw [e, digitsValue_eq_foldl _ hall]
      exact clampLong_of_range hr

theorem numeralText_chars (negative : Bool) (digits : Str)
    (hd : ∀ ch ∈ digits, ch.isDigit = true) :
    ∀ c ∈ numeralText negative digits, c = '-' ∨ c.isDigit = true := by
  intro c hc
  cases negative with
  | true =>
    simp [numeralText] at hc
    rcases hc with h | h
    · exact Or.inl h
    · exact Or.inr (hd c h)
  | false =>
    simp [numeralText] at hc
    exact Or.inr (hd c hc)

theorem requestLine_shape (a s p n t : Str) :
    requestLine a s p n t =
      ("ACTION=".data ++ a) ++ ';' :: (("SSID=".data ++ s) ++ ';' :: (("PASSWORD=".data ++ p)
        ++ ';' :: (("DEVICE_NAME=".data ++ n) ++ ';' :: ("TOKEN=".data ++ (t ++ ['\n']))))) := by
  simp [requestLine]

theorem action_segment_free (a : Str) (ha : ∀ c ∈ a, c = '-' ∨ c.isDigit = true) :
    ¬ "SSID=".data <:+: "ACTION=".data ++ a ∧ ¬ "PASSWORD=".data <:+: "ACTION=".data ++ a ∧
    ¬ "DEVICE_NAME=".data <:+: "ACTION=".data ++ a ∧ ¬ "TOKEN=".data <:+: "ACTION=".data ++ a := by
  have hS : strstr "SSID=".data a = none := strstr_none_of_absent (not_infix_of_head (by
    intro c hc; rcases ha c hc with rfl | h
    · decide
    · exact (isDigit_facts h).2.2.2.2.2.1))
  have hP : strstr "PASSWORD=".data a = none := strstr_none_of_absent (not_infix_of_head (by
    intro c hc; rcases ha c hc with rfl | h
    · decide
    · exact (isDigit_facts h).2.2.2.2.2.2.1))
  have hD : strstr "DEVICE_NAME=".data a = none := strstr_none_of_absent (not_infix_of_head (by
    intro c hc; rcases ha c hc with rfl | h
    · decide
    · exact (isDigit_facts h).2.2.2.2.2.2.2.1))
  have hT : strstr "TOKEN=".data a = none := strstr_none_of_absent (not_infix_of_head (by
    intro c hc; rcases ha c hc with rfl | h
    · decide
    · exact (isDigit_facts h).2.2.2.2.2.2.2.2))
  simp only [← strstr_none_iff]
  refine ⟨?_, ?_, ?_, ?_⟩
  · simpa [strstr] using hS
  · simpa [strstr] using hP
  · simpa [strstr] using hD
  · simpa [strstr] using hT

theorem segment_free {x : Str} (hx : CleanValue x) :
    (¬ "PASSWORD=".data <:+: "SSID=".data ++ x ∧ ¬ "DEVICE_NAME=".data <:+: "SSID=".data ++ x ∧
      ¬ "TOKEN=".data <:+: "SSID=".data ++ x) ∧
    (¬ "DEVICE_NAME=".data <:+: "PASSWORD=".data ++ x ∧ ¬ "TOKEN=".data <:+: "PASSWORD=".data ++ x) ∧
    ¬ "TOKEN=".data <:+: "DEVICE_NAME=".data ++ x := by
  obtain ⟨-, -, hk⟩ := hx
  have hP : strstr "PASSWORD=".data x = none := strstr_none_of_absent (hk _ (by decide))
  have hD : strstr "DEVICE_NAME=".data x = none := strstr_none_of_absent (hk _ (by decide))
  have hT : strstr "TOKEN=".data x = none := strstr_none_of_absent (hk _ (by decide))
  simp only [← strstr_none_iff]
  refine ⟨⟨?_, ?_, ?_⟩, ⟨?_, ?_⟩, ?_⟩
  · simpa [strstr] using hP
  · simpa [strstr] using hD
  · simpa [strstr] using hT
  · simpa [strstr] using hD
  · simpa [strstr] using hT
  · simpa [strstr] using hT

theorem infix_of_afterKey {key s r : Str} (h : afterKey key s = some r) : key <:+: s := by
  cases hk : strstr key s with
  | none =>
    rw [afterKey_none_of_strstr hk] at h
    exact absurd h (by simp)
  | some k => exact infix_of_strstr hk

/-- On a well-formed request line every field is found where the protocol puts it. -/
theorem requestLine_parse (a s p n t : Str) (ha : ∀ c ∈ a, c = '-' ∨ c.isDigit = true)
    (hs : CleanValue s) (hp : CleanValue p) (hn : CleanValue n) (ht : CleanValue t) :
    readRequest (requestLine a s p n t) = requestLine a s p n t ∧
    keysPresent (requestLine a s p n t) = true ∧
    fieldValue "ACTION=" (requestLine a s p n t) = a ∧
    fieldValue "SSID=" (requestLine a s p n t) = s ∧
    fieldValue "PASSWORD=" (requestLine a s p n t) = p ∧
    fieldValue "DEVICE_NAME=" (requestLine a s p n t) = n ∧
    tokenValue (requestLine a s p n t) = t := by
  have hasemi : ';' ∉ a := by
    intro h
    rcases ha _ h with h1 | h1
    · exact absurd h1 (by decide)
    · exact absurd h1 (by decide)
  have hanl : '\n' ∉ a := by
    intro h
    rcases ha _ h with h1 | h1
    · exact absurd h1 (by decide)
    · exact absurd h1 (by decide)
  obtain ⟨a1, a2, a3, a4⟩ := action_segment_free a ha
  obtain ⟨⟨s2, s3, s4⟩, -, -⟩ := segment_free hs
  obtain ⟨-, ⟨p3, p4⟩, -⟩ := segment_free hp
  obtain ⟨-, -, n4⟩ := segment_free hn
  have kA : afterKey "ACTION=".data (requestLine a s p n t) = some (a ++ ';' :: (("SSID=".data ++ s)
      ++ ';' :: (("PASSWORD=".data ++ p) ++ ';' :: (("DEVICE_NAME=".data ++ n)
      ++ ';' :: ("TOKEN=".data ++ (t ++ ['\n'])))))) := by
    rw [requestLine_shape, List.append_assoc]
    exact afterKey_at_key _ (by decide)
  have kS : afterKey "SSID=".data (requestLine a s p n t) = some (s ++ ';' :: (("PASSWORD=".data ++ p)
      ++ ';' :: (("DEVICE_NAME=".data ++ n) ++ ';' :: ("TOKEN=".data ++ (t ++ ['\n']))))) := by
    rw [requestLine_shape, afterKey_skip _ (by decide) (by decide) a1, List.append_assoc]
    exact afterKey_at_key _ (by decide)
  have kP : afterKey "PASSWORD=".data (requestLine a s p n t) = some (p
      ++ ';' :: (("DEVICE_NAME=".data ++ n) ++ ';' :: ("TOKEN=".data ++ (t ++ ['\n'])))) := by
    rw [requestLine_shape, afterKey_skip _ (by decide) (by decide) a2,
      afterKey_skip _ (by decide) (by decide) s2, List.append_assoc]
    exact afterKey_at_key _ (by decide)
  have kN : afterKey "DEVICE_NAME=".data (requestLine a s p n t) = some (n
      ++ ';' :: ("TOKEN=".data ++ (t ++ ['\n']))) := by
    rw [requestLine_shape, afterKey_skip _ (by decide) (by decide) a3,
      afterKey_skip _ (by decide) (by decide) s3, afterKey_skip _ (by decide) (by decide) p3,
      List.append_assoc]
    exact afterKey_at_key _ (by decide)
  have kT : afterKey "TOKEN=".data (requestLine a s p n t) = some (t ++ ['\n']) := by
    rw [requestLine_shape, afterKey_skip _ (by decide) (by decide) a4,
      afterKey_skip _ (by decide) (by decide) s4, afterKey_skip _ (by decide) (by decide) p4,
      afterKey_skip _ (by decide) (by decide) n4]
    exact afterKey_at_key _ (by decide)
  refine ⟨?_, ?_, ?_, ?_, ?_, ?_, ?_⟩
  · have e : requestLine a s p n t = ("ACTION=".data ++ a ++ ";SSID=".data ++ s ++ ";PASSWORD=".data
        ++ p ++ ";DEVICE_NAME=".data ++ n ++ ";TOKEN=".data ++ t) ++ ['\n'] := rfl
    rw [e]
    apply readRequest_line
    simp [hanl, hs.2.1, hp.2.1, hn.2.1, ht.2.1]
  · rw [keysPresent_iff]
    refine ⟨infix_of_afterKey kA, ?_⟩
    simp only [List.mem_cons, List.mem_singleton, forall_eq_or_imp, forall_eq, List.not_mem_nil]
    refine ⟨⟨infix_of_afterKey kS, ?_⟩, ⟨infix_of_afterKey kP, ?_⟩, ⟨infix_of_afterKey kN, ?_⟩,
      ⟨infix_of_afterKey kT, ?_⟩, ?_⟩
    all_goals simp [requestLine]
  · simp only [fieldValue, kA, Option.getD_some]
    exact takeWhile_field _ hasemi
  · simp only [fieldValue, kS, Option.getD_some]
    exact takeWhile_field _ hs.1
  · simp only [fieldValue, kP, Option.getD_some]
    exact takeWhile_field _ hp.1
  · simp only [fieldValue, kN, Option.getD_some]
    exact takeWhile_field _ hn.1
  · simp only [tokenValue, kT, Option.getD_some]
    exact filter_line ht.2.1

/-! ## Lemmas: the join loop -/

theorem wait_mono (r : Radio) (start : Nat) (x : Bool × Nat) :
    ∀ fuel k d, waitForConnection r start fuel k = some x →
      waitForConnection r start (fuel + d) k = some x := by
  intro fuel
  induction fuel with
  | zero => intro k d h; simp [waitForConnection] at h
  | succ f ih =>
    intro k d h
    have e : f + 1 + d = (f + d) + 1 := by omega
    rw [e]
    unfold waitForConnection at h ⊢
    split
    · next hc => simpa [hc] using h
    · next hc =>
      rw [if_neg hc] at h
      split
      · next ht => simpa [ht] using h
      · next ht =>
        rw [if_neg ht] at h
        exact ih _ _ h

theorem clock_progress (r : Radio) (hfirst : r.clock 0 ≤ r.clock 1)
    (hclock : ∀ k, 1 ≤ k → r.clock k + 500 ≤ r.clock (k + 1)) :
    ∀ k, r.clock 0 + 500 * k ≤ r.clock (k + 1) := by
  intro k
  induction k with
  | zero => simpa using hfirst
  | succ n ih =>
    have := hclock (n + 1) (by omega)
    omega

theorem wait_timeout (r : Radio) (hradio : ∀ k, r.connected k = false)
    (hfirst : r.clock 0 ≤ r.clock 1)
    (hclock : ∀ k, 1 ≤ k → r.clock k + 500 ≤ r.clock (k + 1))
    (hbound : ∀ k, r.clock (k + 1) ≤ r.clock k + 4294957295) :
    ∀ fuel k, (∀ j, j < k → r.clock (j + 1) ≤ r.clock 0 + 10000) → 22 ≤ k + fuel →
      ∃ n, n ≤ 21 ∧ waitForConnection r (millis r 0) fuel k = some (false, n) := by
  have hprog := clock_progress r hfirst hclock
  intro fuel
  induction fuel with
  | zero =>
    intro k hk hf
    have h1 := hk 21 (by omega)
    have h2 := hprog 21
    omega
  | succ f ih =>
    intro k hk hf
    unfold waitForConnection
    rw [if_neg (by simp [hradio k])]
    have hp := hprog k
    by_cases hlate : r.clock (k + 1) ≤ r.clock 0 + 10000
    · have hnot : ¬ (elapsed (millis r (k + 1)) (millis r 0) > WIFI_CONNECTION_TIMEOUT) := by
        simp only [elapsed, millis, WIFI_CONNECTION_TIMEOUT]
        omega
      rw [if_neg hnot]
      apply ih (k + 1)
      · intro j hj
        rcases Nat.lt_succ_iff_lt_or_eq.mp hj with h | h
        · exact hk j h
        · rw [h]; exact hlate
      · omega
    · have hk21 : k ≤ 21 := by
        rcases Nat.eq_zero_or_pos k with h | h
        · omega
        · have h1 := hk (k - 1) (by omega)
          have h2 := hprog (k - 1)
          have e : k - 1 + 1 = k := by omega
          rw [e] at h1 h2
          omega
      have hup : r.clock (k + 1) ≤ r.clock 0 + 10000 + 4294957295 := by
        rcases Nat.eq_zero_or_pos k with h | h
        · subst h
          have := hbound 0
          omega
        · have h1 := hk (k - 1) (by omega)
          have e : k - 1 + 1 = k := by omega
          rw [e] at h1
          have := hbound k
          omega
      have hyes : elapsed (millis r (k + 1)) (millis r 0) > WIFI_CONNECTION_TIMEOUT := by
        simp only [elapsed, millis, WIFI_CONNECTION_TIMEOUT]
        omega
      rw [if_pos hyes]
      exact ⟨k, hk21, rfl⟩

theorem stalled_wait (fuel k : Nat) :
    waitForConnection stalledRadio (millis stalledRadio 0) fuel k = none := by
  induction fuel generalizing k with
  | zero => rfl
  | succ f ih =>
    unfold waitForConnection
    have h1 : stalledRadio.connected k = false := rfl
    have h2 : ¬ (elapsed (millis stalledRadio (k + 1)) (millis stalledRadio 0)
        > WIFI_CONNECTION_TIMEOUT) := by
      simp [elapsed, millis, stalledRadio, WIFI_CONNECTION_TIMEOUT]
    rw [if_neg (by simp [h1]), if_neg h2]
    exact ih _

/-! ## Lemmas: connection reports in the trace -/

theorem reports_emit (st : State) (e : Event) (h : isReport e = false) :
    reports (st.emit e) = reports st := by
  simp [reports, State.emit, List.countP_append, List.countP_cons, h]

theorem reports_updateConfig (w : WriteOutcome) (st : State) :
    reports (updateConfig w st) = reports st := by
  cases w <;> simp [updateConfig, reports, State.emit, List.countP_append, List.countP_cons, isReport]

theorem reports_resetConfig (w : WriteOutcome) (st : State) :
    reports (resetConfig w st) = reports st := by
  cases w <;> simp [resetConfig, reports, State.emit, List.countP_append, List.countP_cons, isReport]

theorem reports_create_device (mac : Str) (r : Response) (w : WriteOutcome) (st : State) :
    reports (create_device mac r w st).2 = reports st := by
  have h0 : ∀ s : State, reports (s.emit (.postDevice s.api_url s.api_token
      (deviceBody s.device_name mac s.device_type))) = reports s :=
    fun s => reports_emit s _ rfl
  unfold create_device
  simp only []
  split
  · split
    · exact h0 st
    · split
      · rw [reports_updateConfig]
        exact h0 st
      · exact h0 st
  · exact h0 st

theorem reports_registrationStep (mac : Str) (r : Response) (w : WriteOutcome) (st : State) :
    reports (registrationStep mac r w st) = reports st := by
  unfold registrationStep
  split
  · exact reports_create_device mac r w st
  · rfl

theorem reports_finishTick (env : Tick) (st : State) :
    reports (finishTick env st).state = reports st := by
  simp only [finishTick, Run.state]
  rw [reports_registrationStep]
  exact reports_emit st _ rfl

theorem reports_serveClient (c : Client) (st : State) :
    reports (serveClient c st).state = reports st := by
  unfold serveClient
  simp only []
  split
  · simp only [Run.state]
    rw [reports_emit _ .restart rfl, reports_updateConfig]
    split
    · exact reports_resetConfig _ st
    · rfl
  · simp only [Run.state]
    rw [reports_emit _ .clientStop rfl, reports_emit _ (.reply _) rfl]

theorem reports_connectToWiFi (fuel : Nat) (r : Radio) (ssid password : Str) (st : State)
    (b : Bool) (st2 : State) (h : connectToWiFi fuel r ssid password st = some (b, st2)) :
    reports st2 = reports st := by
  unfold connectToWiFi at h
  simp only [] at h
  split at h
  · simp at h
  · simp only [Option.some.injEq, Prod.mk.injEq] at h
    rw [← h.2, reports_emit _ _ (by decide)]
    exact reports_emit st _ rfl
  · simp only [Option.some.injEq, Prod.mk.injEq] at h
    rw [← h.2]
    exact reports_emit st _ rfl

theorem reports_listenLoop (fuel : Nat) : ∀ (polls : List Poll) (st : State) (run : Run),
    listenLoop fuel polls st = some run → reports run.state = reports st := by
  intro polls
  induction polls with
  | nil =>
    intro st run h
    unfold listenLoop at h
    split at h
    · simp only [Option.some.injEq] at h
      rw [← h]
      exact reports_emit st _ rfl
    · simp only [Option.some.injEq] at h
      rw [← h]
      rfl
  | cons p ps ih =>
    intro st run h
    unfold listenLoop at h
    split at h
    · simp only [Option.some.injEq] at h
      rw [← h]
      exact reports_emit st _ rfl
    · simp only [] at h
      have key : ∀ s1 : State, reports s1 = reports st →
          (match p.client with
            | none => listenLoop fuel ps s1
            | some c =>
              match serveClient c s1 with
              | .returned s2 => listenLoop fuel ps s2
              | other => some other) = some run → reports run.state = reports st := by
        intro s1 hs1 hrun
        cases hc : p.client with
        | none =>
          rw [hc] at hrun
          exact (ih _ _ hrun).trans hs1
        | some c =>
          rw [hc] at hrun
          simp only [] at hrun
          have hsc := reports_serveClient c s1
          cases hserve : serveClient c s1 with
          | returned s2 =>
            rw [hserve] at hrun hsc
            exact ((ih _ _ hrun).trans hsc).trans hs1
          | restarted s2 =>
            rw [hserve] at hrun hsc
            simp only [Option.some.injEq] at hrun
            rw [← hrun]
            exact hsc.trans hs1
          | listening s2 =>
            rw [hserve] at hrun hsc
            simp only [Option.some.injEq] at hrun
            rw [← hrun]
            exact hsc.trans hs1
      cases hr : p.reconnect with
      | none =>
        rw [hr] at h
        exact key st rfl h
      | some r =>
        rw [hr] at h
        simp only [reconnectWifi] at h
        cases hconn : connectToWiFi fuel r st.wifi_ssid st.wifi_password st with
        | none =>
          rw [hconn] at h
          simp at h
        | some res =>
          obtain ⟨b, s1⟩ := res
          rw [hconn] at h
          exact key s1 (reports_connectToWiFi _ _ _ _ _ _ _ hconn) h

/-! ## Lemmas: the identity invariant -/

theorem fitInt_ne_neg_one {i : Int} (h : i ≠ -1) : fitInt i ≠ -1 := by
  unfold fitInt
  split
  · exact h
  · decide

theorem resetConfig_doc_get (w : WriteOutcome) (hw : w ≠ .openFailed) (st : State)
    (h : Settable st.doc) :
    (resetConfig w st).doc.get "DEVICE_ID" = .int (-1) ∧
    (resetConfig w st).doc.get "CREATED" = .bool false := by
  cases w with
  | openFailed => exact absurd rfl hw
  | nothingWritten =>
    simp (disch := first | decide | (intros; (repeat apply settable_set); assumption)) [resetConfig, State.emit, get_set_other, get_set_same]
  | written =>
    simp (disch := first | decide | (intros; (repeat apply settable_set); assumption)) [resetConfig, State.emit, get_set_other, get_set_same]

theorem updateConfig_doc_stuck (w : WriteOutcome) (st : State) (h : ¬ Settable st.doc) :
    (updateConfig w st).doc = st.doc := by
  cases w <;> simp [updateConfig, State.emit, set_of_not_settable h]

theorem resetConfig_doc_stuck (w : WriteOutcome) (st : State) (h : ¬ Settable st.doc) :
    (resetConfig w st).doc = st.doc := by
  cases w <;> simp [resetConfig, State.emit, set_of_not_settable h]

theorem updateConfig_file (w : WriteOutcome) (st : State) :
    (updateConfig w st).file = writeFile w (updateConfig w st).doc st.file := by
  cases w <;> simp [updateConfig, State.emit, writeFile]

theorem resetConfig_file (w : WriteOutcome) (st : State) :
    (resetConfig w st).file = writeFile w (resetConfig w st).doc st.file := by
  cases w <;> simp [resetConfig, State.emit, writeFile]

theorem updateConfig_memory (w : WriteOutcome) (st : State) :
    (updateConfig w st).device_id = st.device_id ∧
    (updateConfig w st).device_created = st.device_created := by
  cases w <;> simp [updateConfig, State.emit]

theorem resetConfig_memory (w : WriteOutcome) (st : State) :
    (resetConfig w st).device_id = st.device_id ∧
    (resetConfig w st).device_created = st.device_created ∧
    (resetConfig w st).wifi_ssid = st.wifi_ssid ∧
    (resetConfig w st).wifi_password = st.wifi_password ∧
    (resetConfig w st).device_settings = st.device_settings := by
  cases w <;> simp [resetConfig, State.emit]

theorem inv_updateConfig (w : WriteOutcome) (st : State)
    (hmem : st.device_created = true → st.device_id ≠ -1) (hfile : PersistedInv st.file) :
    IdentityInv (updateConfig w st) := by
  obtain ⟨e1, e2⟩ := updateConfig_memory w st
  refine ⟨by rw [e1, e2]; exact hmem, ?_⟩
  rw [updateConfig_file]
  cases w with
  | openFailed => exact hfile
  | nothingWritten => trivial
  | written =>
    show asBool (_) = true → asInt (_) ≠ -1
    by_cases hs : Settable st.doc
    · have h := updateConfig_doc_get .written (by simp) st hs
      rw [h.2.2.2.2.2.1, h.2.2.2.2.1]
      intro hc
      exact fitInt_ne_neg_one (hmem hc)
    · rw [updateConfig_doc_stuck _ _ hs, get_of_not_settable hs]
      intro hc
      simp [asBool] at hc

theorem inv_resetConfig (w : WriteOutcome) (st : State) (h : IdentityInv st) :
    IdentityInv (resetConfig w st) := by
  obtain ⟨e1, e2, -⟩ := resetConfig_memory w st
  refine ⟨by rw [e1, e2]; exact h.1, ?_⟩
  rw [resetConfig_file]
  cases w with
  | openFailed => exact h.2
  | nothingWritten => trivial
  | written =>
    show asBool (_) = true → asInt (_) ≠ -1
    by_cases hs : Settable st.doc
    · have h := resetConfig_doc_get .written (by simp) st hs
      rw [h.2]
      intro hc
      simp [asBool] at hc
    · rw [resetConfig_doc_stuck _ _ hs, get_of_not_settable hs]
      intro hc
      simp [asBool] at hc

theorem inv_setup (mounted : Bool) (file : Stored) (h : PersistedInv file) :
    IdentityInv (setup mounted file) := by
  unfold setup
  split
  · cases file with
    | absent => exact ⟨by simp [loadConfig, boot], h⟩
    | holds content =>
      cases content with
      | fail left => exact ⟨by simp [loadConfig, boot], h⟩
      | ok j => exact ⟨h, h⟩
  · exact ⟨by simp [boot], h⟩

theorem inv_create_device (mac : Str) (r : Response) (w : WriteOutcome) (st : State)
    (hid : Op.identityOk (.create_device mac r w)) (h : IdentityInv st) :
    IdentityInv (create_device mac r w st).2 := by
  have hemit : IdentityInv (st.emit (.postDevice st.api_url st.api_token
      (deviceBody st.device_name mac st.device_type))) := h
  unfold create_device
  simp only []
  split
  · next hcode =>
    split
    · exact hemit
    · next j hbody =>
      split
      · next h400 =>
        apply inv_updateConfig
        · intro _
          simp only [Op.identityOk, hbody] at hid
          exact hid hcode h400
        · exact h.2
      · exact hemit
  · exact hemit

theorem inv_fetchSettings (r : Response) (w : WriteOutcome) (st : State) (h : IdentityInv st) :
    IdentityInv (fetchSettings r w st) := by
  unfold fetchSettings
  simp only []
  split
  · split
    · exact h
    · exact inv_updateConfig _ _ h.1 h.2
  · exact h

theorem inv_serveClient (c : Client) (st : State) (h : IdentityInv st) :
    IdentityInv (serveClient c st).state := by
  unfold serveClient
  simp only []
  split
  · simp only [Run.state]
    have hr := inv_resetConfig c.resetWrite st h
    split
    · exact inv_updateConfig _ _ hr.1 hr.2
    · exact inv_updateConfig _ _ h.1 h.2
  · exact h

theorem inv_apply (op : Op) (st : State) (hid : op.identityOk) (h : IdentityInv st) :
    IdentityInv (op.apply st) := by
  cases op with
  | create_device mac r w => exact inv_create_device mac r w st hid h
  | fetchSettings r w => exact inv_fetchSettings r w st h
  | provision c => exact inv_serveClient c st h
  | resetConfig w => exact inv_resetConfig w st h
  | updateConfig w => exact inv_updateConfig w st h.1 h.2
  | reboot mounted => exact inv_setup mounted st.file h.2

/-! ## Claims -/

/-- C2: a request that lacks one of the five keys is answered with the failure line and the
connection is closed; the state is the one before the request with those two events added,
so no global, neither document nor the file changes, neither `resetConfig` nor
`updateConfig` runs, and the device does not restart. -/
theorem C2_missing_key_rejected (c : Client) (st : State) (key : Str)
    (hkey : key ∈ protocolKeys) (hmiss : ¬ key <:+: readRequest c.sent) :
    serveClient c st =
      .returned { st with
        trace := st.trace ++ [.reply "Failed to configure Wi-Fi".data, .clientStop] } := by
  have hk : keysPresent (readRequest c.sent) = false := by
    rw [Bool.eq_false_iff]
    intro h
    obtain ⟨ha, hrest⟩ := (keysPresent_iff _).mp h
    simp only [protocolKeys, List.mem_cons, List.mem_singleton, List.not_mem_nil, or_false] at hkey
    rcases hkey with rfl | rfl | rfl | rfl | rfl
    · exact hmiss ha
    · exact hmiss (hrest _ (by simp)).1
    · exact hmiss (hrest _ (by simp)).1
    · exact hmiss (hrest _ (by simp)).1
    · exact hmiss (hrest _ (by simp)).1
  simp [serveClient, hk, State.emit]

theorem C2_missing_key_rejected_witness :
    "TOKEN=".data ∈ protocolKeys ∧
    ¬ "TOKEN=".data <:+: readRequest
      (Client.mk "ACTION=0;SSID=Home;PASSWORD=secret;DEVICE_NAME=Sensor1\n".data .written .written).sent ∧
    serveClient
      (Client.mk "ACTION=0;SSID=Home;PASSWORD=secret;DEVICE_NAME=Sensor1\n".data .written .written)
      (boot .absent) =
      .returned { boot .absent with
        trace := (boot .absent).trace ++ [.reply "Failed to configure Wi-Fi".data, .clientStop] } :=
  ⟨by decide, by decide, C2_missing_key_rejected _ _ "TOKEN=".data (by decide) (by decide)⟩

/-- What a save right after a load writes, for any state and any object on flash: the text
and identity members are the loaded ones, `API_URL` and `TYPE` stay as they were on flash,
and SETTINGS is what `device_settings` held before the load, not what the flash held. -/
theorem loadConfig_then_updateConfig (st : State) (R : Json) (hfile : st.file = .holds (.ok R))
    (hR : Settable R) :
    ∃ d, (updateConfig .written (loadConfig st)).file = .holds (.ok d) ∧
      d.get "SETTINGS" = asArray st.device_settings ∧
      d.get "WIFI_SSID" = .str (asStr (R.get "WIFI_SSID")) ∧
      d.get "WIFI_PASS" = .str (asStr (R.get "WIFI_PASS")) ∧
      d.get "TOKEN" = .str (asStr (R.get "TOKEN")) ∧
      d.get "DEVICE_NAME" = .str (asStr (R.get "DEVICE_NAME")) ∧
      d.get "DEVICE_ID" = .int (asInt (R.get "DEVICE_ID")) ∧
      d.get "CREATED" = .bool (asBool (R.get "CREATED")) ∧
      d.get "API_URL" = R.get "API_URL" ∧ d.get "TYPE" = R.get "TYPE" := by
  have hl : loadConfig st = { st with
      doc := R
      wifi_ssid := asStr (R.get "WIFI_SSID")
      wifi_password := asStr (R.get "WIFI_PASS")
      api_url := asStr (R.get "API_URL")
      device_type := asInt (R.get "TYPE")
      api_token := asStr (R.get "TOKEN")
      device_name := asStr (R.get "DEVICE_NAME")
      device_id := asInt (R.get "DEVICE_ID")
      device_created := asBool (R.get "CREATED") } := by
    simp [loadConfig, hfile]
  have hs : Settable (loadConfig st).doc := by rw [hl]; exact hR
  have h := updateConfig_doc_get .written (by simp) (loadConfig st) hs
  refine ⟨_, updateConfig_file_written _, ?_, ?_, ?_, ?_, ?_, ?_, ?_, ?_, ?_⟩
  · rw [h.2.2.2.2.2.2, hl]
  · rw [h.1, hl]
  · rw [h.2.1, hl]
  · rw [h.2.2.1, hl]
  · rw [h.2.2.2.1, hl]
  · rw [h.2.2.2.2.1, hl]
  · rw [h.2.2.2.2.2.1, hl]
  · rw [hl]
    simp (disch := decide) [updateConfig, State.emit, get_set_other]
  · rw [hl]
    simp (disch := decide) [updateConfig, State.emit, get_set_other]

/-- C3, at the failing input: the flash holds a record with one setting; after power-up,
`loadConfig` and then `updateConfig`, the record on flash has the same scalar fields but
its SETTINGS member is null, because `loadConfig` never copies the settings into
`device_settings`. -/
theorem C3_settings_lost_on_save :
    registeredRecord.get "SETTINGS" = .arr [tempSetting] ∧
    (loadConfig (boot (.holds (.ok registeredRecord)))).device_settings = .null ∧
    ∃ d, (updateConfig .written (loadConfig (boot (.holds (.ok registeredRecord))))).file
        = .holds (.ok d) ∧
      d.get "SETTINGS" = .null ∧
      d.get "WIFI_SSID" = registeredRecord.get "WIFI_SSID" ∧
      d.get "WIFI_PASS" = registeredRecord.get "WIFI_PASS" ∧
      d.get "API_URL" = registeredRecord.get "API_URL" ∧
      d.get "TYPE" = registeredRecord.get "TYPE" ∧
      d.get "TOKEN" = registeredRecord.get "TOKEN" ∧
      d.get "DEVICE_NAME" = registeredRecord.get "DEVICE_NAME" ∧
      d.get "DEVICE_ID" = registeredRecord.get "DEVICE_ID" ∧
      d.get "CREATED" = registeredRecord.get "CREATED" :=
  ⟨rfl, rfl, _, rfl, rfl, rfl, rfl, rfl, rfl, rfl, rfl, rfl, rfl⟩

/-- C4 (amended): start from power-up with any file on flash that satisfies the invariant (or
none) and run any sequence of `create_device`, `fetchSettings`, provisioning requests,
`resetConfig`, `updateConfig` and reboots, with any answers of the environment, as long as
no registration answer that is taken as a success carries the identity -1.  Then in the
state reached `device_created` implies `device_id ≠ -1`, in memory and for the DEVICE_ID
and CREATED members of the record on flash. -/
theorem C4_identity_invariant (mounted : Bool) (file : Stored) (ops : List Op)
    (hfile : PersistedInv file) (hops : ∀ op ∈ ops, op.identityOk) :
    IdentityInv (runOps ops (setup mounted file)) := by
  have key : ∀ (ops : List Op) (st : State), (∀ op ∈ ops, op.identityOk) → IdentityInv st →
      IdentityInv (runOps ops st) := by
    intro ops
    induction ops with
    | nil => intro st _ h; exact h
    | cons op rest ih =>
      intro st hall h
      exact ih (op.apply st) (fun o ho => hall o (by simp [ho]))
        (inv_apply op st (hall op (by simp)) h)
  exact key ops _ hops (inv_setup mounted file hfile)

theorem C4_identity_invariant_witness :
    PersistedInv (.holds (.ok registeredRecord)) ∧
    (∀ op ∈ sampleOps, op.identityOk) ∧
    IdentityInv (runOps sampleOps (setup true (.holds (.ok registeredRecord)))) := by
  have h1 : PersistedInv (.holds (.ok registeredRecord)) := by decide
  have h2 : ∀ op ∈ sampleOps, op.identityOk := by decide
  exact ⟨h1, h2, C4_identity_invariant true _ sampleOps h1 h2⟩

/-- C4, as stated, fails: after power-up without a file, a registration answered with status
201 and the body `{"id": -1}` leaves `device_created` true with `device_id` -1, in
memory and in the record written to flash. -/
theorem C4_counterexample :
    PersistedInv .absent ∧
    (runOps [.create_device "AA:BB:CC:DD:EE:FF".data (registrationAnswer (-1)) .written]
      (setup true .absent)).device_created = true ∧
    (runOps [.create_device "AA:BB:CC:DD:EE:FF".data (registrationAnswer (-1)) .written]
      (setup true .absent)).device_id = -1 ∧
    (∃ d, (runOps [.create_device "AA:BB:CC:DD:EE:FF".data (registrationAnswer (-1)) .written]
        (setup true .absent)).file = .holds (.ok d) ∧
      d.get "CREATED" = .bool true ∧ d.get "DEVICE_ID" = .int (-1)) ∧
    ¬ IdentityInv
      (runOps [.create_device "AA:BB:CC:DD:EE:FF".data (registrationAnswer (-1)) .written]
        (setup true .absent)) := by
  refine ⟨trivial, rfl, rfl, ⟨_, rfl, rfl, rfl⟩, ?_⟩
  intro h
  exact h.1 rfl rfl

/-- C6, at the failing input: one setting is in memory and on flash; a settings response with
status 200 whose body does not parse leaves the file as it was, but the settings in
memory are gone, because the body is parsed straight into `device_settings`. -/
theorem C6_failed_parse_clears_settings :
    registered.device_settings = .arr [tempSetting] ∧
    (fetchSettings ⟨200, .fail .null⟩ .written registered).device_settings = .null ∧
    (fetchSettings ⟨200, .fail .null⟩ .written registered).file = registered.file :=
  ⟨rfl, rfl, rfl⟩

/-- The part of C6 that holds: a response with a positive status whose body parses as an
array replaces the settings in memory, whatever they were, and `updateConfig` runs; when
the write goes through and the document accepts members, SETTINGS on flash is that
array. -/
theorem fetchSettings_replaces (code : Int) (items : List Json) (w : WriteOutcome) (st : State)
    (hcode : 0 < code) :
    (fetchSettings ⟨code, .ok (.arr items)⟩ w st).device_settings = .arr items ∧
    (fetchSettings ⟨code, .ok (.arr items)⟩ w st).trace
      = st.trace ++ [.getSettings st.api_url st.device_id st.api_token, .updateConfig] ∧
    (w = .written → Settable st.doc →
      ∃ d, (fetchSettings ⟨code, .ok (.arr items)⟩ w st).file = .holds (.ok d) ∧
        d.get "SETTINGS" = .arr items) := by
  refine ⟨?_, ?_, ?_⟩
  · cases w <;> simp [fetchSettings, hcode, updateConfig, State.emit]
  · cases w <;> simp [fetchSettings, hcode, updateConfig, State.emit]
  · intro hw hs
    subst hw
    have h := updateConfig_doc_get .written (by simp)
      ({ st with device_settings := .arr items }.emit
        (.getSettings st.api_url st.device_id st.api_token)) hs
    refine ⟨_, ?_, h.2.2.2.2.2.2⟩
    simp [fetchSettings, hcode, updateConfig_file_written, State.emit]

/-- C8: with `device_created` true, the registration step of the supervisor tick, run any
number of times with any backend answers, leaves the state as it was: the trace gets no
POST to `devices/`, and `device_id`, `device_created` and the file are unchanged. -/
theorem C8_registration_short_circuit (st : State) (h : st.device_created = true)
    (answers : List (Str × Response × WriteOutcome)) :
    answers.foldl (fun s e => registrationStep e.1 e.2.1 e.2.2 s) st = st := by
  induction answers with
  | nil => rfl
  | cons e es ih =>
    have : registrationStep e.1 e.2.1 e.2.2 st = st := by simp [registrationStep, h]
    simp only [List.foldl_cons, this]
    exact ih

theorem C8_registration_short_circuit_witness :
    registered.device_created = true ∧
    [("AA:BB".data, Response.mk 201 (.ok (.obj [("id".data, .int 9)])), WriteOutcome.written),
     ("AA:BB".data, Response.mk 201 (.ok (.obj [("id".data, .int 9)])), WriteOutcome.written)].foldl
      (fun s e => registrationStep e.1 e.2.1 e.2.2 s) registered = registered :=
  ⟨rfl, C8_registration_short_circuit registered rfl _⟩

/-- C10, at the failing input: a registered device (identity 5, created, one setting) gets an
accepted request with ACTION=0.  `resetConfig` writes a record with identity -1 and
CREATED false, but the globals keep their values and `updateConfig` writes them back: the
record on flash at the restart has DEVICE_ID 5, CREATED true and the old setting. -/
theorem C10_reset_overwritten :
    registered.device_id = 5 ∧ registered.device_created = true ∧
    registered.device_settings = .arr [tempSetting] ∧
    keysPresent (readRequest (clientSending
      "ACTION=0;SSID=Home;PASSWORD=secret;DEVICE_NAME=Sensor1;TOKEN=abc123\n").sent) = true ∧
    (parseFields (readRequest (clientSending
      "ACTION=0;SSID=Home;PASSWORD=secret;DEVICE_NAME=Sensor1;TOKEN=abc123\n").sent)).action = 0 ∧
    (∃ d0, (resetConfig .written registered).file = .holds (.ok d0) ∧
      d0.get "DEVICE_ID" = .int (-1) ∧ d0.get "CREATED" = .bool false) ∧
    ∃ fin d,
      serveClient
        (clientSending "ACTION=0;SSID=Home;PASSWORD=secret;DEVICE_NAME=Sensor1;TOKEN=abc123\n")
        registered = .restarted fin ∧
      fin.trace = registered.trace ++ [.resetConfig, .updateConfig, .restart] ∧
      fin.file = .holds (.ok d) ∧
      d.get "DEVICE_ID" = .int 5 ∧ d.get "CREATED" = .bool true ∧
      d.get "SETTINGS" = .arr [tempSetting] ∧
      d.get "WIFI_SSID" = .str "Home".data ∧ d.get "WIFI_PASS" = .str "secret".data ∧
      d.get "DEVICE_NAME" = .str "Sensor1".data ∧ d.get "TOKEN" = .str "abc123".data ∧
      fin.device_id = 5 ∧ fin.device_created = true ∧
      (setup true fin.file).device_id = 5 ∧ (setup true fin.file).device_created = true :=
  ⟨rfl, rfl, rfl, by decide, by decide, ⟨_, rfl, rfl, rfl⟩,
    _, _, rfl, rfl, rfl, rfl, rfl, rfl, rfl, rfl, rfl, rfl, rfl, rfl, rfl, rfl⟩

end SAD
